import Mathlib

/-!
Verification of the Blumi PostBot pipeline against its specification.

This file shallowly embeds the parts of the code base that the checked
properties talk about:

* `backend/bots/postbot/utils/config.py` — `_DEFAULTS`, `load_config`;
* `backend/main.py` — the `make_video` orchestrator (stage sequencing,
  per-stage `asyncio.wait_for` timeouts, housekeeping calls);
* `backend/api.py` — `_run_job_task` and the job-record updates it makes;
* `backend/bots/scheduler/utils/paths.py` (which self-identifies as
  `/postbot/utils/paths.py`) — the signature of `rotate_old_runs`;
* `backend/bots/postbot/compositor/captioner_async.py` —
  `pick_caption_region`, `wrap_text`, the placement fragment of
  `create_caption_image`, and that module's global namespace;
* `backend/bots/postbot/compositor/mixer.py` — `mix_audio_video`;
* `backend/bots/postbot/compositor/composer.py` — `merge_caption`
  (error path);
* `backend/bots/postbot/generator/media_fetcher.py` — `fetch_video`
  (error path).

Machine integers do not occur (Python integers are unbounded); numeric
quantities are `Nat`/`ℚ`.  Calls into CPython runtime machinery
(keyword-argument binding, global-name resolution, traceback formatting)
are modelled explicitly below, faithful to CPython semantics for the
signatures and names involved.
-/

namespace Blumi

/-- Python exceptions that the modelled code can raise. -/
inductive PyExc where
  | typeError : String → PyExc
  | nameError : String → PyExc
  | runtimeError : String → PyExc
  /-- raised by `subprocess.run(..., check=True)`: command, return code, and
  the captured stderr (`None` unless the run captured output). -/
  | calledProcessError : List String → Int → Option String → PyExc
  | timeoutError : PyExc
  | importError : String → PyExc
deriving DecidableEq, Repr

/-- Python `str(e)` for the exceptions above (the detail text). -/
def PyExc.text : PyExc → String
  | .typeError m => m
  | .nameError m => m
  | .runtimeError m => m
  | .calledProcessError _ code _ =>
      "Command returned non-zero exit status " ++ toString code ++ "."
  | .timeoutError => ""
  | .importError m => m

/-- Python exception class name. -/
def PyExc.typeName : PyExc → String
  | .typeError _ => "TypeError"
  | .nameError _ => "NameError"
  | .runtimeError _ => "RuntimeError"
  | .calledProcessError _ _ _ => "CalledProcessError"
  | .timeoutError => "TimeoutError"
  | .importError _ => "ImportError"

/-- Model of `traceback.format_exc()` for a raised exception: the traceback
lines followed by the final `ExcType: detail` line. -/
def format_exc (e : PyExc) : String :=
  "Traceback (most recent call last):\n  ...\n" ++ e.typeName ++ ": " ++ e.text

/-- A Python function signature: name, positional parameter names in order,
and how many of them lack defaults (the leading `numRequired`).  None of the
modelled functions take `*args`/`**kwargs`. -/
structure PySig where
  name : String
  params : List String
  numRequired : Nat

/-- CPython argument binding for a call with `nPos` positional arguments and
the given keyword names, against a signature without `*args`/`**kwargs`.
Returns `TypeError` exactly when CPython would raise one. -/
def bindCall (sig : PySig) (nPos : Nat) (kwNames : List String) : Except PyExc Unit :=
  if sig.params.length < nPos then
    .error (.typeError (sig.name ++ "() takes at most " ++ toString sig.params.length ++
      " positional arguments but " ++ toString nPos ++ " were given"))
  else
    match kwNames.find? (fun k => ! sig.params.contains k) with
    | some k =>
        .error (.typeError (sig.name ++ "() got an unexpected keyword argument: " ++ k))
    | none =>
        match kwNames.find? (fun k => (sig.params.take nPos).contains k) with
        | some k =>
            .error (.typeError (sig.name ++ "() got multiple values for argument: " ++ k))
        | none =>
            if ((sig.params.take sig.numRequired).drop nPos).all
                (fun p => kwNames.contains p) then
              .ok ()
            else
              .error (.typeError (sig.name ++ "() missing required arguments"))

/-! ## Configuration (`backend/bots/postbot/utils/config.py`) -/

/-- JSON-like Python values as they occur in the style configuration. -/
inductive PyVal where
  | pstr : String → PyVal
  | pnum : Nat → PyVal
  | pdict : List (String × PyVal) → PyVal

/-- Python `d.get(k)` on a dict represented as a key-value list. -/
def dictGet (d : List (String × PyVal)) (k : String) : Option PyVal :=
  (d.find? (fun kv => kv.1 == k)).map (fun kv => kv.2)

/-- Python `{**a, **b}`: keys of `a` (values overridden by `b`) followed by
the keys only `b` has. -/
def dictMerge (a b : List (String × PyVal)) : List (String × PyVal) :=
  a.map (fun kv => (kv.1, (dictGet b kv.1).getD kv.2)) ++
    b.filter (fun kv => (dictGet a kv.1).isNone)

/-- Python `d[k] = v`. -/
def dictSet (d : List (String × PyVal)) (k : String) (v : PyVal) : List (String × PyVal) :=
  if (dictGet d k).isSome then
    d.map (fun kv => if kv.1 == k then (k, v) else kv)
  else
    d ++ [(k, v)]

/-- The `_DEFAULTS` dict of `config.py` (note `timeout_seconds` is `120`). -/
def _DEFAULTS : List (String × PyVal) :=
  [("themes", .pdict [("modern", .pdict
      [("font", .pstr "Inter"), ("color", .pstr "#FFFFFF"), ("bg", .pstr "#000000")])]),
   ("default_theme", .pstr "modern"),
   ("keep_runs", .pnum 20),
   ("timeout_seconds", .pnum 120)]

/-- Model of `load_config()`.  The input is the parsed contents of
`config/style.json`, or `none` when the file cannot be loaded (in which case
the source returns `_DEFAULTS.copy()`).  On success the source merges the
file over the defaults and re-merges the `themes` sub-dict. -/
def load_config (file : Option (List (String × PyVal))) : List (String × PyVal) :=
  match file with
  | none => _DEFAULTS
  | some cfg =>
      let merged := dictMerge _DEFAULTS cfg
      let dthemes := match dictGet _DEFAULTS "themes" with
        | some (.pdict t) => t
        | _ => []
      let cthemes := match dictGet cfg "themes" with
        | some (.pdict t) => t
        | _ => []
      dictSet merged "themes" (.pdict (dictMerge dthemes cthemes))

/-- Numeric reading of a config value (the orchestrator uses the values of
`timeout_seconds` and `keep_runs` as numbers). -/
def PyVal.asNum : PyVal → ℚ
  | .pnum n => n
  | _ => 0

/-- The per-stage timeout `make_video` uses:
`cfg.get("timeout_seconds", 240)` where `cfg = load_config()`. -/
def make_video_timeout (file : Option (List (String × PyVal))) : ℚ :=
  ((dictGet (load_config file) "timeout_seconds").getD (.pnum 240)).asNum

/-- The retention count `make_video` uses: `cfg.get("keep_runs", 20)`. -/
def make_video_keep_runs (file : Option (List (String × PyVal))) : ℚ :=
  ((dictGet (load_config file) "keep_runs").getD (.pnum 20)).asNum

/-! ## Orchestrator (`backend/main.py`, `make_video`) -/

/-- Behaviour of one underlying blocking stage call: how long it takes and
what it returns or raises. -/
structure StageSpec where
  time : ℚ
  result : Except PyExc String

/-- Model of `asyncio.wait_for(task, timeout)`: raises `TimeoutError` when
the task needs longer than the timeout, otherwise yields the task outcome. -/
def wait_for (timeout : ℚ) (s : StageSpec) : Except PyExc String :=
  if timeout < s.time then .error .timeoutError else s.result

/-- The six underlying stage calls of one run, in await order. -/
structure Stages where
  narration : StageSpec
  fetch : StageSpec
  tts : StageSpec
  caption : StageSpec
  mix : StageSpec
  merge : StageSpec

/-- The await points of `make_video` in source order, with names. -/
def stageList (st : Stages) : List (String × StageSpec) :=
  [("narration", st.narration), ("fetch", st.fetch), ("tts", st.tts),
   ("caption", st.caption), ("mix", st.mix), ("merge", st.merge)]

/-- Await each stage in order under the given timeout, recording for every
await point the timeout bound applied there; stop at the first failure. -/
def awaitStages (timeout : ℚ) : List (String × StageSpec) →
    List (String × ℚ) × Except PyExc (List String)
  | [] => ([], .ok [])
  | (n, s) :: rest =>
      match wait_for timeout s with
      | .error e => ([(n, timeout)], .error e)
      | .ok v =>
          match awaitStages timeout rest with
          | (tr, .error e) => ((n, timeout) :: tr, .error e)
          | (tr, .ok vs) => ((n, timeout) :: tr, .ok (v :: vs))

/-- Signature of `rotate_old_runs(base_dir: Path) -> None`
(`backend/bots/scheduler/utils/paths.py`, self-identified as
`/postbot/utils/paths.py`, the module `backend/main.py` imports from). -/
def rotate_old_runs_sig : PySig := ⟨"rotate_old_runs", ["base_dir"], 1⟩

/-- Signature of `async def make_video(topic, style, theme, run_root=None)`
in `backend/main.py`. -/
def make_video_sig : PySig := ⟨"make_video", ["topic", "style", "theme", "run_root"], 3⟩

/-- Observable outcome of one `make_video` run. -/
structure MakeVideoOut where
  /-- every `asyncio.wait_for` point reached, with the timeout applied there. -/
  awaits : List (String × ℚ)
  /-- whether `append_run(metadata_entry)` executed. -/
  appendedRun : Bool
  result : Except PyExc String

/-- Model of `make_video`.  The six stages are awaited in source order, each
under the same `timeout`.  On full success the source appends the metadata
entry via `append_run` and then calls
`rotate_old_runs(Path(tempfile.gettempdir()), keep=keep_runs)` — one
positional argument plus the keyword `keep` — before returning the merge
result.  (The fade-metadata read between the caption and mix stages is
wrapped in `try/except: pass` in the source and never raises; it only tunes
arguments of the merge stage and is not modelled.)  Both `except` clauses of
the source re-raise after logging, so a stage error propagates unchanged. -/
def make_video (file : Option (List (String × PyVal))) (st : Stages) : MakeVideoOut :=
  let timeout := make_video_timeout file
  match awaitStages timeout (stageList st) with
  | (tr, .error e) => ⟨tr, false, .error e⟩
  | (tr, .ok vs) =>
      match bindCall rotate_old_runs_sig 1 ["keep"] with
      | .error e => ⟨tr, true, .error e⟩
      | .ok _ => ⟨tr, true, .ok (vs.getLastD "")⟩

/-! ## Job tracking (`backend/api.py`) -/

/-- Job status values stored in the `JOBS` map. -/
inductive JobStatus where
  | queued
  | running
  | done
  | failed
deriving DecidableEq, Repr

/-- The fields of one `JOBS[job_id]` record that the claims talk about
(`created_at` and `workdir` are set once and never change). -/
structure JobRecord where
  status : JobStatus
  progress : Nat
  message : String
  final : Option String
deriving DecidableEq, Repr

/-- The record `run_postbot` (the `/run` handler) creates before queueing the
background task. -/
def initial_job_record : JobRecord :=
  ⟨.queued, 0, "Queued", none⟩

/-- Model of `_run_job_task`: the successive values of `JOBS[job_id]`, in
order, as the source mutates them.  `resolve` is the outcome of the
`make_video` import resolution; `callOutcome` is the outcome of the
`await make_video(...)` call.  The source sets `status`/`message` at the
start, sets `message` again after resolution succeeds, and finally either
updates `status`/`progress`/`final` on success (leaving `message` as it
was), or on any exception sets `status = "failed"` and stores the full
traceback in `message`.  (The optional preview copy after the `done` update
is not modelled; no claim concerns it.) -/
def _run_job_task (resolve : Except PyExc Unit) (callOutcome : Except PyExc String) :
    List JobRecord :=
  let s1 : JobRecord := ⟨.running, 0, "Starting run", none⟩
  match resolve with
  | .error e => [initial_job_record, s1, ⟨.failed, 0, format_exc e, none⟩]
  | .ok _ =>
      let s2 : JobRecord := ⟨.running, 0, "Generating narration & fetching media", none⟩
      match callOutcome with
      | .ok p => [initial_job_record, s1, s2, ⟨.done, 100, s2.message, some p⟩]
      | .error e => [initial_job_record, s1, s2, ⟨.failed, 0, format_exc e, none⟩]

/-- The record a status query sees after the task finished. -/
def run_job_final (resolve : Except PyExc Unit) (callOutcome : Except PyExc String) :
    JobRecord :=
  (_run_job_task resolve callOutcome).getLastD initial_job_record

/-- The keyword arguments `_run_job_task` passes to `make_video` besides the
three positional ones (`payload["topic"]`, `payload["style"]`,
`payload["theme"]`). -/
def run_job_call_kwargs : List String :=
  ["run_root", "voice_id", "caption_settings"]

/-- Outcome of the `await make_video(...)` call in `_run_job_task` when
`make_video` resolved to `backend.main.make_video`: CPython binds the
arguments against `make_video_sig` first; only if binding succeeds would the
body (`bodyResult`) run. -/
def run_job_call_outcome (bodyResult : Except PyExc String) : Except PyExc String :=
  match bindCall make_video_sig 3 run_job_call_kwargs with
  | .error e => .error e
  | .ok _ => bodyResult

/-! ## Media fetcher (`backend/bots/postbot/generator/media_fetcher.py`) -/

/-- Model of `fetch_video(topic, out_path)`: when the provider responds ok
and has videos the file is written and `out_path` returned; otherwise
`RuntimeError("No Pexels video found.")` is raised. -/
def fetch_video (hasResults : Bool) (out_path : String) : Except PyExc String :=
  if hasResults then .ok out_path
  else .error (.runtimeError "No Pexels video found.")

/-! ## Mixer and composer (`mixer.py`, `composer.py`) -/

/-- Result of one external media-tool invocation: its exit status and what
the tool wrote to stderr. -/
structure ToolRun where
  exitCode : Int
  stderrText : String

/-- The ffmpeg command `mix_audio_video` builds. -/
def mix_cmd (video audio out : String) : List String :=
  ["ffmpeg", "-y", "-i", video, "-i", audio, "-c:v", "copy", "-c:a", "aac",
   "-shortest", out]

/-- Model of `mix_audio_video`: `subprocess.run(cmd, check=True)` with no
output capture.  On a non-zero exit status `check=True` raises
`CalledProcessError(returncode, cmd)` whose `stderr` attribute is `None`
(stderr was not piped). -/
def mix_audio_video (run : ToolRun) (video audio out : String) : Except PyExc String :=
  if run.exitCode = 0 then .ok out
  else .error (.calledProcessError (mix_cmd video audio out) run.exitCode none)

/-- Model of the failure handling of `merge_caption`: the source runs ffmpeg
with `check=False, capture_output=True`; on a non-zero exit status it logs
`result.stderr` and raises `RuntimeError("merge_caption ffmpeg failed")` — a
fixed message.  On success it returns the burned-subtitle path when the
optional subtitle pass succeeded, else `out` (that pass never raises). -/
def merge_caption (run : ToolRun) (burned : Option String) (out : String) :
    Except PyExc String :=
  if run.exitCode ≠ 0 then .error (.runtimeError "merge_caption ffmpeg failed")
  else .ok (burned.getD out)

/-! ## Captioner (`backend/bots/postbot/compositor/captioner_async.py`) -/

/-- A sampled frame after grayscale conversion, the `FIND_EDGES` filter and
division by 255: a matrix of edge intensities, row by row
(`arr = np.array(im) / 255.0`). -/
abbrev Frame := List (List ℚ)

/-- Number of rows, `h` in `h, w = arr.shape`. -/
def frameH (f : Frame) : Nat := f.length

/-- Number of columns, `w` in `h, w = arr.shape` (images are rectangular). -/
def frameW (f : Frame) : Nat := (f.headD []).length

/-- The sub-matrix `arr[r*cell_h:(r+1)*cell_h, c*cell_w:(c+1)*cell_w]`. -/
def cellSlice (f : Frame) (cellH cellW r c : Nat) : List (List ℚ) :=
  ((f.drop (r * cellH)).take cellH).map (fun row => (row.drop (c * cellW)).take cellW)

/-- Sum of all entries of a sub-matrix. -/
def sliceSum (s : List (List ℚ)) : ℚ := (s.map (fun row => row.sum)).sum

/-- Number of entries of a sub-matrix. -/
def sliceCount (s : List (List ℚ)) : Nat := (s.map (fun row => row.length)).sum

/-- NumPy `sub.mean()`: sum of the entries divided by their count.  (For the
frames the claims quantify over the slice is non-empty; an empty slice would
be NaN in NumPy and is outside the modelled domain.) -/
def cellMean (f : Frame) (cellH cellW r c : Nat) : ℚ :=
  sliceSum (cellSlice f cellH cellW r c) / (sliceCount (cellSlice f cellH cellW r c) : ℚ)

/-- The per-frame score list `scores` of `pick_caption_region`: the mean of
each grid cell, for `r` then `c` over the 3×3 grid (`pick_caption_region` is
only ever called with `grid=(3,3)`), with `cell_h = h // rows` and
`cell_w = w // cols` taken from this frame. -/
def frameScores (f : Frame) : List ℚ :=
  let cellH := frameH f / 3
  let cellW := frameW f / 3
  (List.range 3).flatMap (fun r => (List.range 3).map (fun c => cellMean f cellH cellW r c))

/-- NumPy `np.argmin`: the index of the first occurrence of the least
element. -/
def argminIdx (l : List ℚ) : Nat :=
  l.indexOf ((l.min?).getD 0)

/-- The elementwise accumulation `accum_scores += scores` over the frames:
it starts from the first frame's score list and adds the others. -/
def accumScores (f0 : Frame) (rest : List Frame) : List ℚ :=
  rest.foldl (fun acc f => List.zipWith (· + ·) acc (frameScores f)) (frameScores f0)

/-- The averaged score list `avg = accum_scores / max(1, len(frame_paths))`. -/
def avgScores (f0 : Frame) (rest : List Frame) : List ℚ :=
  (accumScores f0 rest).map (fun s => s / ((max 1 (f0 :: rest).length : Nat) : ℚ))

/-- Model of `pick_caption_region(frame_paths, grid=(3,3))`, taking the
already-decoded edge-intensity matrices.  Scores are accumulated elementwise
over the frames (`accum_scores += scores`), averaged by
`max(1, len(frame_paths))`, and the first index of the least average wins
(`np.argmin`).  The `cell_w`/`cell_h` used for the returned rectangle leak
out of the frame loop in the source, so they come from the last frame. -/
def pick_caption_region (frames : List Frame) : Option (Nat × Nat × Nat × Nat) :=
  match frames with
  | [] => none
  | f0 :: rest =>
      let idx := argminIdx (avgScores f0 rest)
      let lastF := (f0 :: rest).getLastD []
      let cellH := frameH lastF / 3
      let cellW := frameW lastF / 3
      some ((idx % 3) * cellW, (idx / 3) * cellH, cellW, cellH)

/-- Specification-side quantity for claim C8: the mean edge intensity of
grid cell `(r, c)` of an `h`×`w` frame, averaged over all sampled frames. -/
def avg_cell_score (frames : List Frame) (h w r c : Nat) : ℚ :=
  ((frames.map (fun f => cellMean f (h / 3) (w / 3) r c)).sum) / (frames.length : ℚ)

/-- The caption-box placement fragment of `create_caption_image`: given the
region chosen by `pick_caption_region` (or `None`) and the frame resolution,
produce `(x, y, box_w, box_h)`.  Source truncations `int(width * 0.9)`,
`int(height * 0.78)`, `int(height * 0.15)`, `int(box_w * 0.9)`,
`int(box_h * 0.6)` and `int((...) / 2)` are floors of the exact products; at
the resolutions the claims evaluate (in particular the 1280×720 fallback)
the binary floating-point results coincide with the exact ones. -/
def choose_placement (region : Option (Nat × Nat × Nat × Nat)) (width height : Nat) :
    Nat × Nat × Nat × Nat :=
  match region with
  | none =>
      let box_w := width * 9 / 10
      let x := (width - box_w) / 2
      let y := height * 78 / 100
      let box_h := height * 15 / 100
      (x, y, box_w, box_h)
  | some (rx, ry, rw, rh) =>
      let box_w := rw * 9 / 10
      let box_h := rh * 6 / 10
      let x := rx + (rw - box_w) / 2
      let y := ry + (rh - box_h) / 2
      (x, y, box_w, box_h)

/-- The names bound at module level in `captioner_async.py`: its imports
(lines 1–9) and its own definitions.  `json` is not among them. -/
def captioner_async_globals : List String :=
  ["os", "math", "subprocess", "Path", "Image", "ImageDraw", "ImageFont",
   "ImageFilter", "np", "aiofiles", "tempfile",
   "_load_font", "sample_frames_for_layout", "pick_caption_region",
   "wrap_text", "create_caption_image"]

/-- CPython global-name resolution inside `captioner_async.py`. -/
def resolve_global (n : String) : Option String :=
  if captioner_async_globals.contains n then some n else none

/-- Model of `create_caption_image(video_path, narration, workdir, theme)`,
taking the decoded sampled frames.  The placement is chosen as in the
source; the gradient and text rendering only produce pixel content (not
modelled) and the `wrap_text` call is inside `try/except`, so neither can
raise.  The last statement writes `caption_meta.json` via
`json.dumps(meta, indent=2)`, which resolves the global name `json`. -/
def create_caption_image (frames : List Frame) (narration : String) (theme : String) :
    Except PyExc String :=
  let region := pick_caption_region frames
  let width := match frames with
    | [] => 1280
    | f :: _ => frameW f
  let height := match frames with
    | [] => 720
    | f :: _ => frameH f
  let _placement := choose_placement region width height
  let _narr := narration
  let _theme := theme
  match resolve_global "json" with
  | some _ => .ok "caption.png"
  | none => .error (.nameError "name json is not defined")

/-- Helper for `py_split`: walk the characters, collecting the current word
in reverse; whitespace closes the current word (if any). -/
def py_split_aux (cur : List Char) : List Char → List String
  | [] => if cur = [] then [] else [⟨cur.reverse⟩]
  | c :: t =>
      if c.isWhitespace then
        (if cur = [] then py_split_aux [] t else ⟨cur.reverse⟩ :: py_split_aux [] t)
      else py_split_aux (c :: cur) t

/-- Python `text.split()` with no separator argument: split on whitespace
runs, producing no empty words. -/
def py_split (text : String) : List String := py_split_aux [] text.toList

/-- One iteration of the `for w in words` loop of `wrap_text`.  The state is
`(lines, cur)`.  The word is appended to `cur`; when the rendered width of
the joined `cur` exceeds `max_width` the word is popped again, the previous
`cur` is emitted as a line and a fresh line starts with the word.  `wf`
models `draw.textlength(s, font=font)`. -/
def wrapStep (wf : String → ℚ) (maxW : ℚ) :
    List (List String) × List String → String → List (List String) × List String :=
  fun state w =>
    let cur2 := state.2 ++ [w]
    if maxW < wf (" ".intercalate cur2) then
      (state.1 ++ [state.2], [w])
    else
      (state.1, cur2)

/-- The line structure `wrap_text` builds: fold the loop over the words and
append the trailing `cur` when non-empty (`if cur: lines.append(...)`). -/
def wrapLines (wf : String → ℚ) (maxW : ℚ) (text : String) : List (List String) :=
  let words := py_split text
  let state := words.foldl (wrapStep wf maxW) ([], [])
  if state.2 ≠ [] then state.1 ++ [state.2] else state.1

/-- Model of `wrap_text(draw, text, font, max_width)`: the lines joined with
spaces and newlines. -/
def wrap_text (wf : String → ℚ) (maxW : ℚ) (text : String) : String :=
  "\n".intercalate ((wrapLines wf maxW text).map (fun l => " ".intercalate l))

/-- Character-list prefix test (componentwise equality). -/
def leads_with : List Char → List Char → Bool
  | [], _ => true
  | _ :: _, [] => false
  | a :: as, b :: bs => a == b && leads_with as bs

/-- Whether `needle` occurs contiguously inside the second list. -/
def has_sub (needle : List Char) : List Char → Bool
  | [] => leads_with needle []
  | c :: t => leads_with needle (c :: t) || has_sub needle t

/-- Whether `needle` occurs as a substring of `hay`. -/
def str_has_sub (hay needle : String) : Bool :=
  has_sub needle.toList hay.toList

/-! ## Theorems -/

/-- C1: every call of `create_caption_image` that reaches the
metadata-writing step raises `NameError`, because the name `json` is not
bound in the module namespace of `captioner_async.py`; consequently the
function never returns a caption path (and `caption_meta.json` is never
produced). -/
theorem create_caption_image_raises_nameerror
    (frames : List Frame) (narration theme : String) :
    resolve_global "json" = none ∧
    create_caption_image frames narration theme =
      .error (.nameError "name json is not defined") ∧
    ∀ p : String, create_caption_image frames narration theme ≠ .ok p := by
  have h2 : create_caption_image frames narration theme =
      .error (.nameError "name json is not defined") := rfl
  refine ⟨rfl, h2, ?_⟩
  intro p hp
  rw [h2] at hp
  simp at hp

/-- C2: the `await make_video(...)` call in `_run_job_task`, with
`make_video` resolved to `backend.main.make_video`, passes the keyword
arguments `voice_id` and `caption_settings` that the signature
`(topic, style, theme, run_root)` does not accept, so binding raises
`TypeError` for every payload, the job ends with status `failed`, and no
intermediate or final record ever has status `done`. -/
theorem run_job_task_typeerror_failed (bodyResult : Except PyExc String) :
    bindCall make_video_sig 3 run_job_call_kwargs =
      .error (.typeError "make_video() got an unexpected keyword argument: voice_id") ∧
    (run_job_final (.ok ()) (run_job_call_outcome bodyResult)).status = .failed ∧
    ∀ r ∈ _run_job_task (.ok ()) (run_job_call_outcome bodyResult),
      r.status ≠ .done := by
  have hb : bindCall make_video_sig 3 run_job_call_kwargs =
      .error (.typeError "make_video() got an unexpected keyword argument: voice_id") := rfl
  have ho : run_job_call_outcome bodyResult =
      .error (.typeError "make_video() got an unexpected keyword argument: voice_id") := by
    unfold run_job_call_outcome
    rw [hb]
  refine ⟨hb, ?_, ?_⟩
  · rw [ho]
    rfl
  · intro r hr
    rw [ho] at hr
    simp [_run_job_task, initial_job_record] at hr
    rcases hr with h | h | h | h <;> subst h <;> decide

/-- Witness for C2: instantiated at `bodyResult = .ok "x"` and at the
initial record, which is a member of the state sequence. -/
theorem run_job_task_typeerror_failed_witness :
    (run_job_final (.ok ()) (run_job_call_outcome (.ok "x"))).status = .failed ∧
    (⟨.queued, 0, "Queued", none⟩ : JobRecord).status ≠ .done := by
  have h := run_job_task_typeerror_failed (.ok "x")
  exact ⟨h.2.1, h.2.2 ⟨.queued, 0, "Queued", none⟩ (by decide)⟩

/-- C3, counterexample: when no configuration file can be loaded the
per-stage timeout `make_video` uses is 120 seconds (the `_DEFAULTS` value of
`timeout_seconds`), not 240 — the `cfg.get("timeout_seconds", 240)` fallback
is dead because `load_config` always supplies the key. -/
theorem default_timeout_not_240 :
    make_video_timeout none = 120 ∧ ¬ make_video_timeout none = 240 := by
  constructor
  · rfl
  · intro h
    rw [show make_video_timeout none = 120 from rfl] at h
    norm_num at h

/-- C5, counterexample to the claim as stated: for a run whose
`make_video` call succeeds, the job record takes exactly two in-progress
(`running`) values — `("Starting run", 0)` and
`("Generating narration & fetching media", 0)`, both written before any
stage completes — so there are 2 in-progress updates, not one per each of
the six stage boundaries, and no in-progress message/progress pair ever
reflects a completed stage. -/
theorem job_record_not_updated_per_stage :
    ((_run_job_task (.ok ()) (.ok "final.mp4")).filter
        (fun r => r.status == .running)).map (fun r => (r.message, r.progress)) =
      [("Starting run", 0), ("Generating narration & fetching media", 0)] ∧
    ¬ 6 ≤ ((_run_job_task (.ok ()) (.ok "final.mp4")).filter
        (fun r => r.status == .running)).length := by
  decide

/-- C5, amended: the orchestrator does not update the job record at stage
boundaries; for every resolution and call outcome, any record state with
status `running` carries one of the two fixed message/progress pairs written
before the stages run. -/
theorem job_record_two_inprogress_states (resolve : Except PyExc Unit)
    (callOutcome : Except PyExc String) :
    ∀ r ∈ _run_job_task resolve callOutcome, r.status = .running →
      (r.message, r.progress) = ("Starting run", 0) ∨
      (r.message, r.progress) = ("Generating narration & fetching media", 0) := by
  intro r hr hs
  cases resolve with
  | error e =>
      simp [_run_job_task, initial_job_record] at hr
      rcases hr with h | h | h <;> subst h <;> simp_all
  | ok _ =>
      cases callOutcome with
      | ok p =>
          simp [_run_job_task, initial_job_record] at hr
          rcases hr with h | h | h | h <;> subst h <;> simp_all
      | error e =>
          simp [_run_job_task, initial_job_record] at hr
          rcases hr with h | h | h | h <;> subst h <;> simp_all

/-- Witness for C5 (amended), at a successful run and the first in-progress
record. -/
theorem job_record_two_inprogress_states_witness :
    ((("Starting run" : String), (0 : Nat)) = ("Starting run", 0)) ∨
    ((("Starting run" : String), (0 : Nat)) = ("Generating narration & fetching media", 0)) := by
  have h := job_record_two_inprogress_states (.ok ()) (.ok "final.mp4")
  exact h ⟨.running, 0, "Starting run", none⟩ (by decide) rfl

/-- C6: whenever the guarded body of `_run_job_task` raises (in particular
when a pipeline stage raises and `make_video` re-raises), the job record
ends with status `failed`, its message is the full traceback and so contains
the error detail, and no final artifact path is set; the footage provider
finding no results raises `RuntimeError("No Pexels video found.")` and that
text appears in the final message. -/
theorem stage_error_recorded_in_job (e : PyExc) (p : String) :
    (run_job_final (.ok ()) (.error e)).status = .failed ∧
    (∃ s t, (run_job_final (.ok ()) (.error e)).message = s ++ e.text ++ t) ∧
    (run_job_final (.ok ()) (.error e)).final = none ∧
    fetch_video false p = .error (.runtimeError "No Pexels video found.") ∧
    str_has_sub (run_job_final (.ok ())
        (.error (.runtimeError "No Pexels video found."))).message
      "No Pexels video found." = true := by
  have hf : run_job_final (.ok ()) (.error e) = ⟨.failed, 0, format_exc e, none⟩ := rfl
  refine ⟨by rw [hf], ?_, by rw [hf], rfl, by decide⟩
  refine ⟨"Traceback (most recent call last):\n  ...\n" ++ e.typeName ++ ": ", "", ?_⟩
  rw [hf]
  show format_exc e = _
  simp [format_exc, String.append_assoc]

/-- C7, counterexample: a failing mux or overlay invocation does not carry
the tool's stderr on the raised error.  `merge_caption` raises a
fixed-message `RuntimeError` (the stderr is only logged) and
`mix_audio_video` raises a `CalledProcessError` whose captured stderr is
`None` because the run does not capture output. -/
theorem tool_stderr_not_carried :
    merge_caption ⟨1, "diag: xyz"⟩ none "final.mp4" =
      .error (.runtimeError "merge_caption ffmpeg failed") ∧
    str_has_sub "merge_caption ffmpeg failed" "diag: xyz" = false ∧
    mix_audio_video ⟨1, "diag: xyz"⟩ "bg.mp4" "narration.mp3" "merged.mp4" =
      .error (.calledProcessError (mix_cmd "bg.mp4" "narration.mp3" "merged.mp4") 1 none) ∧
    str_has_sub (PyExc.text
        (.calledProcessError (mix_cmd "bg.mp4" "narration.mp3" "merged.mp4") 1 none))
      "diag: xyz" = false ∧
    (none : Option String) ≠ some "diag: xyz" := by
  refine ⟨rfl, by decide, rfl, by decide, by simp⟩

/-- C7, amended: on any non-zero tool exit status, `merge_caption` raises
`RuntimeError` with the fixed message `merge_caption ffmpeg failed` (stderr
only logged), and `mix_audio_video` raises `CalledProcessError` carrying the
command and exit code with no captured stderr. -/
theorem tool_failure_fixed_messages (run : ToolRun) (burned : Option String)
    (v a o out : String) (h : run.exitCode ≠ 0) :
    merge_caption run burned out = .error (.runtimeError "merge_caption ffmpeg failed") ∧
    mix_audio_video run v a o =
      .error (.calledProcessError (mix_cmd v a o) run.exitCode none) := by
  constructor
  · simp [merge_caption, h]
  · simp [mix_audio_video, h]

/-- Witness for C7 (amended) at exit code 1. -/
theorem tool_failure_fixed_messages_witness :
    merge_caption ⟨1, "w"⟩ none "out.mp4" =
      .error (.runtimeError "merge_caption ffmpeg failed") ∧
    mix_audio_video ⟨1, "w"⟩ "v" "a" "o" =
      .error (.calledProcessError (mix_cmd "v" "a" "o") 1 none) :=
  tool_failure_fixed_messages ⟨1, "w"⟩ none "v" "a" "o" "out.mp4" (by decide)

/-- Every await point recorded by `awaitStages` carries the timeout it was
called with. -/
lemma awaitStages_timeout (timeout : ℚ) (l : List (String × StageSpec)) :
    ∀ p ∈ (awaitStages timeout l).1, p.2 = timeout := by
  induction l with
  | nil =>
      intro p hp
      simp [awaitStages] at hp
  | cons hd tl ih =>
      intro p hp
      obtain ⟨n, s⟩ := hd
      cases hw : wait_for timeout s with
      | error e =>
          simp [awaitStages, hw] at hp
          rw [hp]
      | ok v =>
          rcases hrec : awaitStages timeout tl with ⟨tr, r⟩
          cases r with
          | error e =>
              simp [awaitStages, hw, hrec] at hp
              rcases hp with h | h
              · rw [h]
              · exact ih p (by rw [hrec]; exact h)
          | ok vs =>
              simp [awaitStages, hw, hrec] at hp
              rcases hp with h | h
              · rw [h]
              · exact ih p (by rw [hrec]; exact h)

/-- The await trace of `make_video` is the one `awaitStages` produces under
the configured timeout, whatever the stages do. -/
lemma make_video_awaits (file : Option (List (String × PyVal))) (st : Stages) :
    (make_video file st).awaits =
      (awaitStages (make_video_timeout file) (stageList st)).1 := by
  unfold make_video
  rcases hA : awaitStages (make_video_timeout file) (stageList st) with ⟨tr, r⟩
  cases r with
  | error e => simp [hA]
  | ok vs =>
      cases hb : bindCall rotate_old_runs_sig 1 ["keep"] with
      | error e => simp [hA, hb]
      | ok u => simp [hA, hb]

/-- When all six stages complete in time and succeed, `awaitStages` under
timeout 120 records all six await points and collects the six results. -/
lemma awaitStages_all_ok (st : Stages) (v1 v2 v3 v4 v5 v6 : String)
    (h1 : st.narration.time ≤ 120) (h2 : st.narration.result = .ok v1)
    (h3 : st.fetch.time ≤ 120) (h4 : st.fetch.result = .ok v2)
    (h5 : st.tts.time ≤ 120) (h6 : st.tts.result = .ok v3)
    (h7 : st.caption.time ≤ 120) (h8 : st.caption.result = .ok v4)
    (h9 : st.mix.time ≤ 120) (h10 : st.mix.result = .ok v5)
    (h11 : st.merge.time ≤ 120) (h12 : st.merge.result = .ok v6) :
    awaitStages 120 (stageList st) =
      ([("narration", 120), ("fetch", 120), ("tts", 120), ("caption", 120),
        ("mix", 120), ("merge", 120)], .ok [v1, v2, v3, v4, v5, v6]) := by
  have w1 : wait_for 120 st.narration = .ok v1 := by
    rw [wait_for, if_neg (not_lt.2 h1), h2]
  have w2 : wait_for 120 st.fetch = .ok v2 := by
    rw [wait_for, if_neg (not_lt.2 h3), h4]
  have w3 : wait_for 120 st.tts = .ok v3 := by
    rw [wait_for, if_neg (not_lt.2 h5), h6]
  have w4 : wait_for 120 st.caption = .ok v4 := by
    rw [wait_for, if_neg (not_lt.2 h7), h8]
  have w5 : wait_for 120 st.mix = .ok v5 := by
    rw [wait_for, if_neg (not_lt.2 h9), h10]
  have w6 : wait_for 120 st.merge = .ok v6 := by
    rw [wait_for, if_neg (not_lt.2 h11), h12]
  simp [stageList, awaitStages, w1, w2, w3, w4, w5, w6]

/-- C3, amended: the six stages are each bounded by the same single
configurable timeout, applied per await point (on a fully successful run all
six await points appear, each under that bound, not a cumulative deadline);
with no loadable configuration file that per-stage timeout is 120 seconds. -/
theorem per_stage_timeout_120 (st : Stages) (v1 v2 v3 v4 v5 v6 : String)
    (h1 : st.narration.time ≤ 120) (h2 : st.narration.result = .ok v1)
    (h3 : st.fetch.time ≤ 120) (h4 : st.fetch.result = .ok v2)
    (h5 : st.tts.time ≤ 120) (h6 : st.tts.result = .ok v3)
    (h7 : st.caption.time ≤ 120) (h8 : st.caption.result = .ok v4)
    (h9 : st.mix.time ≤ 120) (h10 : st.mix.result = .ok v5)
    (h11 : st.merge.time ≤ 120) (h12 : st.merge.result = .ok v6) :
    (make_video none st).awaits =
      [("narration", 120), ("fetch", 120), ("tts", 120), ("caption", 120),
       ("mix", 120), ("merge", 120)] ∧
    make_video_timeout none = 120 ∧
    ∀ (st2 : Stages) (file : Option (List (String × PyVal))),
      ∀ p ∈ (make_video file st2).awaits, p.2 = make_video_timeout file := by
  have ht : make_video_timeout none = 120 := rfl
  refine ⟨?_, ht, ?_⟩
  · rw [make_video_awaits, ht,
      awaitStages_all_ok st v1 v2 v3 v4 v5 v6 h1 h2 h3 h4 h5 h6 h7 h8 h9 h10 h11 h12]
  · intro st2 file p hp
    exact awaitStages_timeout _ _ p (by rw [← make_video_awaits]; exact hp)

/-- Witness for C3 (amended): all six stages return immediately. -/
theorem per_stage_timeout_120_witness :
    (make_video none ⟨⟨0, .ok "n"⟩, ⟨0, .ok "v"⟩, ⟨0, .ok "a"⟩, ⟨0, .ok "c"⟩,
        ⟨0, .ok "m"⟩, ⟨0, .ok "f"⟩⟩).awaits =
      [("narration", 120), ("fetch", 120), ("tts", 120), ("caption", 120),
       ("mix", 120), ("merge", 120)] := by
  have h := per_stage_timeout_120
    ⟨⟨0, .ok "n"⟩, ⟨0, .ok "v"⟩, ⟨0, .ok "a"⟩, ⟨0, .ok "c"⟩, ⟨0, .ok "m"⟩, ⟨0, .ok "f"⟩⟩
    "n" "v" "a" "c" "m" "f"
    (by norm_num) rfl (by norm_num) rfl (by norm_num) rfl
    (by norm_num) rfl (by norm_num) rfl (by norm_num) rfl
  exact h.1

/-- C4: on a run where all six stages succeed, `make_video` appends the
history record, but the retention call
`rotate_old_runs(Path(tempfile.gettempdir()), keep=keep_runs)` raises
`TypeError` (the function only takes `base_dir`), so the orchestrator raises
instead of returning the final artifact path. -/
theorem make_video_rotate_keyword_typeerror (st : Stages) (v1 v2 v3 v4 v5 v6 : String)
    (h1 : st.narration.time ≤ 120) (h2 : st.narration.result = .ok v1)
    (h3 : st.fetch.time ≤ 120) (h4 : st.fetch.result = .ok v2)
    (h5 : st.tts.time ≤ 120) (h6 : st.tts.result = .ok v3)
    (h7 : st.caption.time ≤ 120) (h8 : st.caption.result = .ok v4)
    (h9 : st.mix.time ≤ 120) (h10 : st.mix.result = .ok v5)
    (h11 : st.merge.time ≤ 120) (h12 : st.merge.result = .ok v6) :
    bindCall rotate_old_runs_sig 1 ["keep"] =
      .error (.typeError "rotate_old_runs() got an unexpected keyword argument: keep") ∧
    (make_video none st).appendedRun = true ∧
    (make_video none st).result =
      .error (.typeError "rotate_old_runs() got an unexpected keyword argument: keep") := by
  have hb : bindCall rotate_old_runs_sig 1 ["keep"] =
      .error (.typeError "rotate_old_runs() got an unexpected keyword argument: keep") := rfl
  have ht : make_video_timeout none = 120 := rfl
  have hA := awaitStages_all_ok st v1 v2 v3 v4 v5 v6 h1 h2 h3 h4 h5 h6 h7 h8 h9 h10 h11 h12
  refine ⟨hb, ?_, ?_⟩ <;> simp [make_video, ht, hA, hb]

/-- Witness for C4: all six stages return immediately; the history record is
appended and the run raises the `TypeError` from the rotate call. -/
theorem make_video_rotate_keyword_typeerror_witness :
    (make_video none ⟨⟨0, .ok "n"⟩, ⟨0, .ok "v"⟩, ⟨0, .ok "a"⟩, ⟨0, .ok "c"⟩,
        ⟨0, .ok "m"⟩, ⟨0, .ok "f"⟩⟩).appendedRun = true ∧
    (make_video none ⟨⟨0, .ok "n"⟩, ⟨0, .ok "v"⟩, ⟨0, .ok "a"⟩, ⟨0, .ok "c"⟩,
        ⟨0, .ok "m"⟩, ⟨0, .ok "f"⟩⟩).result =
      .error (.typeError "rotate_old_runs() got an unexpected keyword argument: keep") := by
  have h := make_video_rotate_keyword_typeerror
    ⟨⟨0, .ok "n"⟩, ⟨0, .ok "v"⟩, ⟨0, .ok "a"⟩, ⟨0, .ok "c"⟩, ⟨0, .ok "m"⟩, ⟨0, .ok "f"⟩⟩
    "n" "v" "a" "c" "m" "f"
    (by norm_num) rfl (by norm_num) rfl (by norm_num) rfl
    (by norm_num) rfl (by norm_num) rfl (by norm_num) rfl
  exact ⟨h.2.1, h.2.2⟩

/-- The least element returned by `List.min?` is a member bounding the whole
list from below. -/
lemma list_min_spec (l : List ℚ) (a : ℚ) (hm : l.min? = some a) :
    a ∈ l ∧ ∀ b ∈ l, a ≤ b :=
  (@List.min?_eq_some_iff ℚ a _ _ ⟨@fun _ _ h1 h2 => le_antisymm h1 h2⟩ le_refl min_choice
    (fun _ _ _ => le_min_iff)).1 hm

/-- On a non-empty list `min?` yields a value. -/
lemma list_min_exists (l : List ℚ) (hne : l ≠ []) : ∃ a, l.min? = some a := by
  cases l with
  | nil => exact absurd rfl hne
  | cons x xs => exact ⟨_, List.min?_cons⟩

/-- The index `argminIdx` returns is in range and its entry is least. -/
lemma argminIdx_spec (l : List ℚ) (hne : l ≠ []) :
    argminIdx l < l.length ∧ ∀ j < l.length, l.getD (argminIdx l) 0 ≤ l.getD j 0 := by
  obtain ⟨m, hm⟩ := list_min_exists l hne
  obtain ⟨hmem, hle⟩ := list_min_spec l m hm
  have hidx : l.indexOf m < l.length := List.indexOf_lt_length.2 hmem
  have hval : l.getD (l.indexOf m) 0 = m := by
    rw [List.getD_eq_getElem l 0 hidx]
    exact List.indexOf_get hidx
  have harg : argminIdx l = l.indexOf m := by
    unfold argminIdx
    rw [hm]
    rfl
  rw [harg]
  refine ⟨hidx, ?_⟩
  intro j hj
  rw [hval, List.getD_eq_getElem l 0 hj]
  exact hle _ (List.getElem_mem hj)

/-- The per-frame score list, spelt out cell by cell (row-major). -/
lemma frameScores_eq (f : Frame) :
    frameScores f =
      [cellMean f (frameH f / 3) (frameW f / 3) 0 0,
       cellMean f (frameH f / 3) (frameW f / 3) 0 1,
       cellMean f (frameH f / 3) (frameW f / 3) 0 2,
       cellMean f (frameH f / 3) (frameW f / 3) 1 0,
       cellMean f (frameH f / 3) (frameW f / 3) 1 1,
       cellMean f (frameH f / 3) (frameW f / 3) 1 2,
       cellMean f (frameH f / 3) (frameW f / 3) 2 0,
       cellMean f (frameH f / 3) (frameW f / 3) 2 1,
       cellMean f (frameH f / 3) (frameW f / 3) 2 2] := rfl

/-- Score lists always have nine entries (one per 3×3 grid cell). -/
lemma frameScores_length (f : Frame) : (frameScores f).length = 9 := by
  rw [frameScores_eq]
  rfl

/-- Entry `j` of a score list is the mean of cell `(j / 3, j % 3)`. -/
lemma frameScores_getD (f : Frame) (j : Nat) (hj : j < 9) :
    (frameScores f).getD j 0 =
      cellMean f (frameH f / 3) (frameW f / 3) (j / 3) (j % 3) := by
  interval_cases j <;> rw [frameScores_eq] <;> rfl

/-- Entrywise reading of `zipWith (+)`. -/
lemma zip_add_getD (a b : List ℚ) (j : Nat) (hja : j < a.length) (hjb : j < b.length) :
    (List.zipWith (· + ·) a b).getD j 0 = a.getD j 0 + b.getD j 0 := by
  have hz : j < (List.zipWith (· + ·) a b).length := by
    rw [List.length_zipWith]
    exact lt_min hja hjb
  rw [List.getD_eq_getElem _ 0 hz, List.getD_eq_getElem _ 0 hja,
    List.getD_eq_getElem _ 0 hjb, List.getElem_zipWith]

/-- The score accumulation preserves the nine-entry shape. -/
lemma foldl_zip_length (l : List Frame) : ∀ acc : List ℚ, acc.length = 9 →
    (l.foldl (fun a f => List.zipWith (· + ·) a (frameScores f)) acc).length = 9 := by
  induction l with
  | nil =>
      intro acc h
      simpa
  | cons f t ih =>
      intro acc h
      rw [List.foldl_cons]
      exact ih _ (by rw [List.length_zipWith, h, frameScores_length]; exact min_self 9)

/-- Entrywise value of the score accumulation: initial entry plus the sum of
the corresponding entries over the folded frames. -/
lemma foldl_zip_getD (l : List Frame) : ∀ acc : List ℚ, acc.length = 9 → ∀ j < 9,
    (l.foldl (fun a f => List.zipWith (· + ·) a (frameScores f)) acc).getD j 0 =
      acc.getD j 0 + (l.map (fun f => (frameScores f).getD j 0)).sum := by
  induction l with
  | nil =>
      intro acc h j hj
      simp
  | cons f t ih =>
      intro acc h j hj
      rw [List.foldl_cons,
        ih _ (by rw [List.length_zipWith, h, frameScores_length]; exact min_self 9) j hj,
        zip_add_getD acc (frameScores f) j (h ▸ hj) ((frameScores_length f) ▸ hj),
        List.map_cons, List.sum_cons]
      ring

/-- Entrywise value of `accum_scores`: the sum over all frames. -/
lemma accumScores_getD (f0 : Frame) (rest : List Frame) (j : Nat) (hj : j < 9) :
    (accumScores f0 rest).getD j 0 =
      ((f0 :: rest).map (fun f => (frameScores f).getD j 0)).sum := by
  unfold accumScores
  rw [foldl_zip_getD rest (frameScores f0) (frameScores_length f0) j hj,
    List.map_cons, List.sum_cons]

/-- The accumulated score list has nine entries. -/
lemma accumScores_length (f0 : Frame) (rest : List Frame) :
    (accumScores f0 rest).length = 9 :=
  foldl_zip_length rest (frameScores f0) (frameScores_length f0)

/-- The averaged score list has nine entries. -/
lemma avgScores_length (f0 : Frame) (rest : List Frame) :
    (avgScores f0 rest).length = 9 := by
  unfold avgScores
  rw [List.length_map]
  exact accumScores_length f0 rest

/-- Entrywise value of `avg`: the frame sum divided by the frame count
(`max 1 len` equals `len` for a non-empty frame list). -/
lemma avgScores_getD (f0 : Frame) (rest : List Frame) (j : Nat) (hj : j < 9) :
    (avgScores f0 rest).getD j 0 =
      ((f0 :: rest).map (fun f => (frameScores f).getD j 0)).sum /
        (((f0 :: rest).length : Nat) : ℚ) := by
  have hmax : (max 1 (f0 :: rest).length) = (f0 :: rest).length :=
    max_eq_right (by simp)
  have hmap := @List.getD_map ℚ ℚ (accumScores f0 rest) 0 j
    (fun s => s / ((max 1 (f0 :: rest).length : Nat) : ℚ))
  simp only [zero_div] at hmap
  unfold avgScores
  rw [hmap, accumScores_getD f0 rest j hj, hmax]

/-- The width of any non-empty frame with rows of length `w` is `w`. -/
lemma frameW_eq (f : Frame) (w : Nat) (hf : f ≠ []) (hrow : ∀ row ∈ f, row.length = w) :
    frameW f = w := by
  cases f with
  | nil => exact absurd rfl hf
  | cons r t => simpa [frameW] using hrow r (List.mem_cons_self r t)

/-- C8: for every non-empty list of uniformly sized sampled frames (at least
3×3, so every 3×3 grid cell is non-empty), `pick_caption_region` returns the
rectangle of the grid cell whose mean edge intensity, averaged over all
sampled frames, is the lowest among all cells. -/
theorem pick_caption_region_lowest_avg (frames : List Frame) (h w : Nat)
    (hne : frames ≠ []) (hh : 3 ≤ h) (hw : 3 ≤ w)
    (hdim : ∀ f ∈ frames, frameH f = h ∧ ∀ row ∈ f, row.length = w) :
    ∃ r c, r < 3 ∧ c < 3 ∧
      pick_caption_region frames = some (c * (w / 3), r * (h / 3), w / 3, h / 3) ∧
      ∀ r2 < 3, ∀ c2 < 3,
        avg_cell_score frames h w r c ≤ avg_cell_score frames h w r2 c2 := by
  obtain ⟨f0, rest, rfl⟩ : ∃ f0 rest, frames = f0 :: rest := by
    cases frames with
    | nil => exact absurd rfl hne
    | cons a b => exact ⟨a, b, rfl⟩
  have havglen : (avgScores f0 rest).length = 9 := avgScores_length f0 rest
  have havgne : avgScores f0 rest ≠ [] := by
    intro hnil
    rw [hnil] at havglen
    simp at havglen
  obtain ⟨hidx, hmin⟩ := argminIdx_spec (avgScores f0 rest) havgne
  have hidx9 : argminIdx (avgScores f0 rest) < 9 := by
    rw [havglen] at hidx
    exact hidx
  have hentry : ∀ j, j < 9 → (avgScores f0 rest).getD j 0 =
      avg_cell_score (f0 :: rest) h w (j / 3) (j % 3) := by
    intro j hj
    rw [avgScores_getD f0 rest j hj]
    unfold avg_cell_score
    congr 1
    refine congrArg List.sum (List.map_congr_left ?_)
    intro f hf
    rw [frameScores_getD f j hj]
    obtain ⟨hfh, hfrow⟩ := hdim f hf
    have hfne : f ≠ [] := by
      intro h0
      rw [h0] at hfh
      simp [frameH] at hfh
      omega
    rw [hfh, frameW_eq f w hfne hfrow]
  refine ⟨argminIdx (avgScores f0 rest) / 3, argminIdx (avgScores f0 rest) % 3,
    by omega, by omega, ?_, ?_⟩
  · have hlast : (f0 :: rest).getLastD [] = (f0 :: rest).getLast (by simp) := by
      rw [List.getLastD_eq_getLast?, List.getLast?_eq_getLast _ (by simp), Option.getD_some]
    have hlmem : (f0 :: rest).getLast (by simp) ∈ f0 :: rest := List.getLast_mem _
    obtain ⟨hlh, hlrow⟩ := hdim _ hlmem
    have hlne : (f0 :: rest).getLast (by simp) ≠ [] := by
      intro h0
      rw [h0] at hlh
      simp [frameH] at hlh
      omega
    have hlw : frameW ((f0 :: rest).getLast (by simp)) = w := frameW_eq _ w hlne hlrow
    have hpick : pick_caption_region (f0 :: rest) =
        some ((argminIdx (avgScores f0 rest) % 3) * (frameW ((f0 :: rest).getLastD []) / 3),
          (argminIdx (avgScores f0 rest) / 3) * (frameH ((f0 :: rest).getLastD []) / 3),
          frameW ((f0 :: rest).getLastD []) / 3,
          frameH ((f0 :: rest).getLastD []) / 3) := rfl
    rw [hpick, hlast, hlh, hlw]
  · intro r2 hr2 c2 hc2
    have hj2 : r2 * 3 + c2 < 9 := by omega
    have hdiv : (r2 * 3 + c2) / 3 = r2 := by omega
    have hmod : (r2 * 3 + c2) % 3 = c2 := by omega
    calc avg_cell_score (f0 :: rest) h w (argminIdx (avgScores f0 rest) / 3)
          (argminIdx (avgScores f0 rest) % 3)
        = (avgScores f0 rest).getD (argminIdx (avgScores f0 rest)) 0 :=
          (hentry _ hidx9).symm
      _ ≤ (avgScores f0 rest).getD (r2 * 3 + c2) 0 := hmin _ (by rw [havglen]; exact hj2)
      _ = avg_cell_score (f0 :: rest) h w r2 c2 := by rw [hentry _ hj2, hdiv, hmod]

/-- Witness for C8: two identical 3×3 frames whose only low-intensity pixel
is the bottom-right cell. -/
theorem pick_caption_region_lowest_avg_witness :
    ∃ r c, r < 3 ∧ c < 3 ∧
      pick_caption_region [[[1, 1, 1], [1, 1, 1], [1, 1, 0]],
          [[1, 1, 1], [1, 1, 1], [1, 1, 0]]] =
        some (c * (3 / 3), r * (3 / 3), 3 / 3, 3 / 3) ∧
      ∀ r2 < 3, ∀ c2 < 3,
        avg_cell_score [[[1, 1, 1], [1, 1, 1], [1, 1, 0]],
            [[1, 1, 1], [1, 1, 1], [1, 1, 0]]] 3 3 r c ≤
          avg_cell_score [[[1, 1, 1], [1, 1, 1], [1, 1, 0]],
            [[1, 1, 1], [1, 1, 1], [1, 1, 0]]] 3 3 r2 c2 :=
  pick_caption_region_lowest_avg
    [[[1, 1, 1], [1, 1, 1], [1, 1, 0]], [[1, 1, 1], [1, 1, 1], [1, 1, 0]]] 3 3
    (by decide) (by decide) (by decide) (by decide)

/-- C9: with zero sampled frames the region heuristic yields `None` and the
placement is the deterministic bottom-center fallback on the 1280×720
default resolution: box 90% of the width and 15% of the height, horizontally
centered, top edge at 78% of the height (floor). -/
theorem caption_fallback_bottom_center :
    pick_caption_region ([] : List Frame) = none ∧
    choose_placement none 1280 720 = (64, 561, 1152, 108) ∧
    1152 = 1280 * 90 / 100 ∧ 108 = 720 * 15 / 100 ∧
    64 + 1152 + 64 = 1280 ∧ 561 = 720 * 78 / 100 := by
  refine ⟨rfl, ?_, by decide, by decide, by decide, by decide⟩
  decide

/-- Invariant of the `wrap_text` word loop: the processed words are exactly
the emitted lines plus the current line, in order; and provided every
emitted line of at least two words fits (and likewise the current line),
this stays true after folding more words. -/
lemma wrap_fold (wf : String → ℚ) (maxW : ℚ) (ws : List String) :
    ∀ st : List (List String) × List String,
      ((ws.foldl (wrapStep wf maxW) st).1.flatten ++ (ws.foldl (wrapStep wf maxW) st).2 =
        st.1.flatten ++ st.2 ++ ws) ∧
      ((∀ L ∈ st.1, 2 ≤ L.length → wf (" ".intercalate L) ≤ maxW) →
        (2 ≤ st.2.length → wf (" ".intercalate st.2) ≤ maxW) →
        ((∀ L ∈ (ws.foldl (wrapStep wf maxW) st).1, 2 ≤ L.length →
            wf (" ".intercalate L) ≤ maxW) ∧
          (2 ≤ (ws.foldl (wrapStep wf maxW) st).2.length →
            wf (" ".intercalate (ws.foldl (wrapStep wf maxW) st).2) ≤ maxW))) := by
  induction ws with
  | nil =>
      intro st
      exact ⟨by simp, fun hl hc => ⟨hl, hc⟩⟩
  | cons w ws ih =>
      intro st
      rw [List.foldl_cons]
      refine ⟨?_, ?_⟩
      · rw [(ih (wrapStep wf maxW st w)).1]
        unfold wrapStep
        by_cases hover : maxW < wf (" ".intercalate (st.2 ++ [w]))
        · simp [hover, List.flatten_append, List.append_assoc]
        · simp [hover, List.append_assoc]
      · intro hl hc
        apply (ih (wrapStep wf maxW st w)).2
        · unfold wrapStep
          by_cases hover : maxW < wf (" ".intercalate (st.2 ++ [w]))
          · simp only [if_pos hover]
            intro L hL
            rcases List.mem_append.1 hL with h | h
            · exact hl L h
            · have : L = st.2 := by simpa using h
              rw [this]
              exact hc
          · simp only [if_neg hover]
            exact hl
        · unfold wrapStep
          by_cases hover : maxW < wf (" ".intercalate (st.2 ++ [w]))
          · simp only [if_pos hover]
            intro h2
            simp at h2
          · simp only [if_neg hover]
            intro _
            exact not_lt.1 hover

/-- C10: `wrap_text` performs a greedy word-wrap — every word of the input
appears in the output lines exactly once and in order (the flattened line
structure is exactly the split input), and any output line holding at least
two words rendered within the available width (a line can exceed the width
only when it is a single oversized word). -/
theorem wrap_text_greedy (wf : String → ℚ) (maxW : ℚ) (text : String) :
    (wrapLines wf maxW text).flatten = py_split text ∧
    ∀ L ∈ wrapLines wf maxW text, 2 ≤ L.length → wf (" ".intercalate L) ≤ maxW := by
  have h := wrap_fold wf maxW (py_split text) ([], [])
  have hjoin := h.1
  simp only [List.flatten_nil, List.nil_append] at hjoin
  have hinv := h.2 (fun L hL => absurd hL (List.not_mem_nil L)) (fun h2 => by simp at h2)
  have hwl : wrapLines wf maxW text =
      if ((py_split text).foldl (wrapStep wf maxW) ([], [])).2 ≠ [] then
        ((py_split text).foldl (wrapStep wf maxW) ([], [])).1 ++
          [((py_split text).foldl (wrapStep wf maxW) ([], [])).2]
      else ((py_split text).foldl (wrapStep wf maxW) ([], [])).1 := rfl
  rw [hwl]
  by_cases hcur : ((py_split text).foldl (wrapStep wf maxW) ([], [])).2 = []
  · rw [if_neg (by simpa using hcur)]
    refine ⟨?_, hinv.1⟩
    rw [hcur, List.append_nil] at hjoin
    exact hjoin
  · rw [if_pos hcur]
    refine ⟨?_, ?_⟩
    · rw [List.flatten_append]
      simpa using hjoin
    · intro L hL
      rcases List.mem_append.1 hL with hL | hL
      · exact hinv.1 L hL
      · have hLe : L = ((py_split text).foldl (wrapStep wf maxW) ([], [])).2 := by
          simpa using hL
        intro h2
        rw [hLe]
        exact hinv.2 (hLe ▸ h2)

/-- Witness for C10: width is the rendered string length, available width 6,
three words of two characters. -/
theorem wrap_text_greedy_witness :
    ([["aa", "bb"], ["cc"]] : List (List String)).flatten = py_split "aa bb cc" ∧
    (fun s => ((s.length : Nat) : ℚ)) (" ".intercalate ["aa", "bb"]) ≤ 6 := by
  have h := wrap_text_greedy (fun s => ((s.length : Nat) : ℚ)) 6 "aa bb cc"
  have heq : wrapLines (fun s => ((s.length : Nat) : ℚ)) 6 "aa bb cc" =
      [["aa", "bb"], ["cc"]] := by decide
  refine ⟨?_, ?_⟩
  · rw [← heq]
    exact h.1
  · exact h.2 ["aa", "bb"] (by rw [heq]; simp) (by norm_num)

end Blumi
